import Mathlib

/-!
Verification of the SheetGPT repository (a browser spreadsheet viewer with a
keyword-dispatching query panel).  The definitions below are a shallow
embedding of the TypeScript source: records are ordered string-keyed maps of
scalar values, JavaScript number coercion is modelled with exact rationals,
and the query dispatcher, CSV parser, table view and correlation routine are
translated function by function.  Array mutation is made observable where the
source calls Array.prototype.sort, so that frame properties are meaningful.
-/

namespace SheetGPT

/-! String primitives.  The JavaScript string operations used by the source
are modelled by structural recursion over character lists, so that every
definition evaluates by kernel reduction on concrete inputs. -/

/-- Whitespace trimming on character lists (both ends). -/
def trimChars (l : List Char) : List Char :=
  ((l.dropWhile Char.isWhitespace).reverse.dropWhile Char.isWhitespace).reverse

/-- String.prototype.trim. -/
def jsTrim (s : String) : String := String.mk (trimChars s.toList)

/-- Split of a character list at every occurrence of a separator; empty
pieces are kept, as by String.prototype.split. -/
def splitChar (sep : Char) : List Char → List (List Char)
  | [] => [[]]
  | c :: t =>
    if c = sep then [] :: splitChar sep t
    else
      match splitChar sep t with
      | [] => [[c]]
      | h :: r => (c :: h) :: r

/-- String.prototype.split with a one-character separator. -/
def jsSplit (s : String) (sep : Char) : List String :=
  (splitChar sep s.toList).map String.mk

/-- String.prototype.startsWith. -/
def strStarts (s p : String) : Bool := p.toList.isPrefixOf s.toList

/-- String.prototype.endsWith. -/
def strEnds (s p : String) : Bool := p.toList.reverse.isPrefixOf s.toList.reverse

/-- String.prototype.substring from position zero: the first n characters. -/
def strTake (s : String) (n : ℕ) : String := String.mk (s.toList.take n)

/-- Scalar cell value of a record: null, a boolean, a number (modelled as an
exact rational) or a string.  JavaScript undefined is modelled as an absent
key, i.e. a failed lookup. -/
inductive Value where
  | vNull : Value
  | vBool : Bool → Value
  | vNum : ℚ → Value
  | vStr : String → Value
deriving DecidableEq, Repr

/-- A record is an ordered association list from column names to values,
modelling a JavaScript object with string keys (insertion order and no
duplicate keys, maintained by insertJs). -/
abbrev Record := List (String × Value)

/-- Reading row[col]; none models JavaScript undefined (missing key). -/
def lookupRec (r : Record) (c : String) : Option Value :=
  match r.find? (fun p => p.1 == c) with
  | some p => some p.2
  | none => none

/-- Object.keys of a record. -/
def jsKeys (r : Record) : List String := r.map Prod.fst

/-- Loose inequality with null: v != null is false exactly for null and
undefined. -/
def jsNotNullish (v : Option Value) : Bool :=
  match v with
  | none => false
  | some Value.vNull => false
  | some _ => true

/-- Falsiness of a JavaScript value for the pattern row[c] || fallback:
undefined, null, the empty string, zero and false are falsy. -/
def jsFalsy (v : Option Value) : Bool :=
  match v with
  | none => true
  | some Value.vNull => true
  | some (Value.vBool b) => !b
  | some (Value.vNum q) => q == 0
  | some (Value.vStr s) => s == ""

/-- String.prototype.toLowerCase, modelled character by character. -/
def jsToLower (s : String) : String := String.mk (s.toList.map Char.toLower)

/-- Substring search on character lists (needle occurs contiguously). -/
def listContainsSub (l n : List Char) : Bool :=
  match l with
  | [] => n.isEmpty
  | _ :: t => n.isPrefixOf l || listContainsSub t n

/-- String.prototype.includes: substring containment. -/
def strIncludes (hay needle : String) : Bool :=
  listContainsSub hay.toList needle.toList

/-- Value of a list of decimal digits. -/
def digitsToNat (l : List Char) : ℕ :=
  l.foldl (fun acc c => 10 * acc + (c.toNat - '0'.toNat)) 0

/-- Fractional value of a list of decimal digits read after a decimal point. -/
def fracOfDigits (l : List Char) : ℚ :=
  (digitsToNat l : ℚ) / (10 : ℚ) ^ l.length

/-- Exponent suffix of a JavaScript numeric literal: accepts e or E, an
optional sign and at least one digit, and must consume the rest of the
input.  Returns the scaled mantissa, or none (NaN). -/
def parseExpPart (base : ℚ) (l : List Char) : Option ℚ :=
  match l with
  | [] => some base
  | c :: r =>
    if c = 'e' ∨ c = 'E' then
      let (neg, r2) : Bool × List Char :=
        match r with
        | '-' :: r3 => (true, r3)
        | '+' :: r3 => (false, r3)
        | _ => (false, r)
      let ds := r2.takeWhile Char.isDigit
      let rest := r2.dropWhile Char.isDigit
      if ds.isEmpty ∨ ¬ rest.isEmpty then none
      else if neg then some (base / (10 : ℚ) ^ digitsToNat ds)
      else some (base * (10 : ℚ) ^ digitsToNat ds)
    else none

/-- Unsigned decimal literal with optional fraction and exponent, consuming
the whole input: digits, digits.digits, .digits or digits. forms. -/
def parseUnsignedNum (l : List Char) : Option ℚ :=
  let intPart := l.takeWhile Char.isDigit
  let rest := l.dropWhile Char.isDigit
  match rest with
  | '.' :: r2 =>
    let frac := r2.takeWhile Char.isDigit
    let r3 := r2.dropWhile Char.isDigit
    if intPart.isEmpty ∧ frac.isEmpty then none
    else parseExpPart ((digitsToNat intPart : ℚ) + fracOfDigits frac) r3
  | _ =>
    if intPart.isEmpty then none
    else parseExpPart (digitsToNat intPart : ℚ) rest

/-- Signed decimal literal consuming the whole input. -/
def parseSignedNum (l : List Char) : Option ℚ :=
  match l with
  | '-' :: r => (parseUnsignedNum r).map Neg.neg
  | '+' :: r => parseUnsignedNum r
  | _ => parseUnsignedNum l

/-- Number(string) coercion: surrounding whitespace is trimmed, the empty
(or all-whitespace) string converts to 0, and otherwise the whole trimmed
string must be a signed decimal literal; none models NaN.  Hexadecimal and
Infinity literals are outside the model (datasets hold finite decimals). -/
def jsParseNum (s : String) : Option ℚ :=
  let t := trimChars s.toList
  if t = [] then some 0 else parseSignedNum t

/-- Leading-prefix unsigned decimal for parseFloat: reads the longest
numeric prefix and ignores trailing junk; none when no digits are found. -/
def parseFloatUnsigned (l : List Char) : Option ℚ :=
  let intPart := l.takeWhile Char.isDigit
  let rest := l.dropWhile Char.isDigit
  match rest with
  | '.' :: r2 =>
    let frac := r2.takeWhile Char.isDigit
    if intPart.isEmpty ∧ frac.isEmpty then none
    else some ((digitsToNat intPart : ℚ) + fracOfDigits frac)
  | _ =>
    if intPart.isEmpty then none
    else some (digitsToNat intPart : ℚ)

/-- parseFloat(string): skips leading whitespace, reads an optional sign and
then the longest decimal prefix; none models NaN.  Exponent suffixes of the
prefix are ignored here, which only shortens the parsed prefix. -/
def jsParseFloat (s : String) : Option ℚ :=
  match trimChars s.toList with
  | '-' :: r => (parseFloatUnsigned r).map Neg.neg
  | '+' :: r => parseFloatUnsigned r
  | l => parseFloatUnsigned l

/-- Rendering of a number in a response string.  This single canonical
printer abstracts toLocaleString and its digit options; every claim proved
below is insensitive to the concrete digits. -/
def fmtNum (q : ℚ) : String :=
  (if q.num < 0 then "-" else "") ++ toString q.num.natAbs ++
    (if q.den = 1 then "" else "/" ++ toString q.den)

/-- String(value) for a present value.  Numbers are rendered with the
canonical rational printer, abstracting the JavaScript float formatter. -/
def valToString (v : Value) : String :=
  match v with
  | Value.vNull => "null"
  | Value.vBool b => if b then "true" else "false"
  | Value.vNum q => fmtNum q
  | Value.vStr s => s

/-- String(row[col]) including the undefined case. -/
def jsToString (v : Option Value) : String :=
  match v with
  | none => "undefined"
  | some w => valToString w

/-- Number(value): null and the empty string coerce to 0, booleans to 0 or 1,
strings through the decimal parser; none models NaN (e.g. undefined). -/
def toNum (v : Option Value) : Option ℚ :=
  match v with
  | none => none
  | some Value.vNull => some 0
  | some (Value.vBool b) => some (if b then 1 else 0)
  | some (Value.vNum q) => some q
  | some (Value.vStr s) => jsParseNum s

/-- parseFloat(value): a number stays itself, everything else is stringified
and prefix-parsed. -/
def parseFloatVal (v : Value) : Option ℚ :=
  match v with
  | Value.vNum q => some q
  | w => jsParseFloat (valToString w)

/-- parseFloat(row[col]) including the undefined case. -/
def parseFloatOpt (v : Option Value) : Option ℚ :=
  match v with
  | none => none
  | some w => parseFloatVal w

/-- Helper for two-digit zero padding. -/
def pad2 (n : ℕ) : String :=
  if n < 10 then "0" ++ toString n else toString n

/-- Number.prototype.toFixed(2), modelled with exact rounding to nearest. -/
def fmtFixed2 (q : ℚ) : String :=
  let c : ℤ := round (q * 100)
  (if c < 0 then "-" else "") ++ toString (c.natAbs / 100) ++ "." ++ pad2 (c.natAbs % 100)

/-! CSV parsing (FileUpload.tsx, parseCSV). -/

/-- Cell cleanup: h.trim().replace of every double quote by nothing. -/
def cleanCell (s : String) : String :=
  String.mk ((trimChars s.toList).filter (fun c => c ≠ '"'))

/-- text.split of the newline character. -/
def splitLines (text : String) : List String := jsSplit text '\n'

/-- Header row: first line split on commas, each cell cleaned. -/
def headersOf (text : String) : List String :=
  (jsSplit ((splitLines text).headD "") ',').map cleanCell

/-- Fields of one data line. -/
def fieldsOf (line : String) : List String :=
  (jsSplit line ',').map cleanCell

/-- Assignment row[k] = v on a JavaScript object: overwrites in place when
the key exists, otherwise appends, preserving key insertion order. -/
def insertJs (r : Record) (k : String) (v : Value) : Record :=
  if r.any (fun p => p.1 == k) then
    r.map (fun p => if p.1 == k then (k, v) else p)
  else r ++ [(k, v)]

/-- Loop headers.forEach((header, index) => row[header] = values[index] || '')
with explicit running index. -/
def buildRowAux (values : List String) : List String → ℕ → Record → Record
  | [], _, r => r
  | h :: t, i, r => buildRowAux values t (i + 1) (insertJs r h (Value.vStr (values.getD i "")))

/-- Record built from the header list and the field values of one line. -/
def buildRow (headers values : List String) : Record :=
  buildRowAux values headers 0 []

/-- Body loop of parseCSV: each data line that is nonempty after trimming
contributes one record, in line order. -/
def parseRows (headers : List String) : List String → List Record
  | [] => []
  | l :: ls =>
    if jsTrim l ≠ "" then buildRow headers (fieldsOf l) :: parseRows headers ls
    else parseRows headers ls

/-- parseCSV from FileUpload.tsx. -/
def parseCSV (text : String) : List Record :=
  parseRows (headersOf text) ((splitLines text).drop 1)

/-- First-occurrence deduplication relative to already seen keys; models the
key list of a JavaScript object after a sequence of insertions. -/
def dedupFrom (seen : List String) : List String → List String
  | [] => []
  | h :: t => if h ∈ seen then dedupFrom seen t else h :: dedupFrom (h :: seen) t

/-- Column set of the header line, in header order, first occurrence kept. -/
def dedupFirst (l : List String) : List String := dedupFrom [] l

/-! Table view (DataPreview.tsx). -/

/-- One user filter condition of the data table. -/
structure FilterCondition where
  column : String
  operator : String
  value : String
deriving DecidableEq, Repr

/-- Sort direction of the table. -/
inductive SortDir where
  | asc : SortDir
  | desc : SortDir
deriving DecidableEq, Repr

/-- Search predicate: some stringified value of the row contains the
lowercased search term. -/
def searchPred (term : String) (row : Record) : Bool :=
  row.any (fun p => strIncludes (jsToLower (valToString p.2)) (jsToLower term))

/-- Evaluation of one filter condition against a row. -/
def filterPred (flt : FilterCondition) (row : Record) : Bool :=
  let cellValue := jsToLower (valToString
    (match lookupRec row flt.column with
     | some w => if jsFalsy (some w) then Value.vStr "" else w
     | none => Value.vStr ""))
  let filterValue := jsToLower flt.value
  match flt.operator with
  | "equals" => cellValue == filterValue
  | "contains" => strIncludes cellValue filterValue
  | "starts_with" => strStarts cellValue filterValue
  | "ends_with" => strEnds cellValue filterValue
  | "greater_than" =>
    match jsParseFloat cellValue, jsParseFloat filterValue with
    | some a, some b => a > b
    | _, _ => false
  | "less_than" =>
    match jsParseFloat cellValue, jsParseFloat filterValue with
    | some a, some b => a < b
    | _, _ => false
  | _ => true

/-- Comparator of the table sort, returned as a signed rational: numeric
comparison when both cells prefix-parse as numbers, otherwise a locale
string comparison modelled as lexicographic order. -/
def rowCmp (sortColumn : String) (dir : SortDir) (a b : Record) : ℚ :=
  let aValue := lookupRec a sortColumn
  let bValue := lookupRec b sortColumn
  match parseFloatOpt aValue, parseFloatOpt bValue with
  | some x, some y => match dir with | SortDir.asc => x - y | SortDir.desc => y - x
  | _, _ =>
    let aStr := jsToLower (jsToString aValue)
    let bStr := jsToLower (jsToString bValue)
    let cmp := fun (s t : String) => if s < t then (-1 : ℚ) else if s = t then 0 else 1
    match dir with | SortDir.asc => cmp aStr bStr | SortDir.desc => cmp bStr aStr

/-- Boolean order corresponding to the comparator (comparator at most 0). -/
def rowLe (sortColumn : String) (dir : SortDir) (a b : Record) : Bool :=
  rowCmp sortColumn dir a b ≤ 0

/-- Array.prototype.sort, modelled with a stable insertion sort ordered by
the boolean comparator order. -/
def sortJs (le : Record → Record → Bool) (l : List Record) : List Record :=
  l.insertionSort (fun a b => le a b = true)

/-- Reference to an array during evaluation of a view: either the shared
dataset array (root) or a freshly allocated array with the given contents.
This makes in-place mutation by sort observable. -/
inductive JsArr where
  | root : JsArr
  | heap : List Record → JsArr
deriving DecidableEq, Repr

/-- Contents of an array reference given the current dataset contents. -/
def contentsA (st : List Record) : JsArr → List Record
  | JsArr.root => st
  | JsArr.heap l => l

/-- Array.prototype.sort on a reference: sorts the referenced array in place
and returns it together with the possibly updated dataset contents. -/
def jsSortA (le : Record → Record → Bool) (a : JsArr) (st : List Record) :
    JsArr × List Record :=
  match a with
  | JsArr.root => (JsArr.root, sortJs le st)
  | JsArr.heap l => (JsArr.heap (sortJs le l), st)

/-- filteredAndSortedData from DataPreview.tsx, with the dataset array
threaded through explicitly: returns the reference holding the view and the
dataset contents after evaluation.  The spread before sort allocates a fresh
array, so the sort mutates the copy. -/
def filteredAndSortedDataS (data : List Record) (searchTerm : String)
    (filters : List FilterCondition) (sortColumn : String) (dir : SortDir) :
    JsArr × List Record :=
  let a0 : JsArr := JsArr.root
  let a1 := if searchTerm ≠ "" then
      JsArr.heap ((contentsA data a0).filter (searchPred searchTerm))
    else a0
  let a2 := if filters ≠ [] then
      JsArr.heap ((contentsA data a1).filter (fun row => filters.all (fun f => filterPred f row)))
    else a1
  if sortColumn ≠ "" then
    let c := JsArr.heap (contentsA data a2)
    jsSortA (rowLe sortColumn dir) c data
  else (a2, data)

/-- paginatedData from DataPreview.tsx: a slice of the view, which allocates
a fresh array and leaves the dataset untouched. -/
def paginatedDataS (data : List Record) (searchTerm : String)
    (filters : List FilterCondition) (sortColumn : String) (dir : SortDir)
    (page : ℕ) : JsArr × List Record :=
  let (a, st) := filteredAndSortedDataS data searchTerm filters sortColumn dir
  (JsArr.heap (((contentsA st a).drop ((page - 1) * 10)).take 10), st)

/-- Sample values of getColumnType: values of the column in the first ten
rows that are neither nullish nor the empty string. -/
def sampleVals (data : List Record) (column : String) : List (Option Value) :=
  ((data.take 10).map (fun r => lookupRec r column)).filter
    (fun v => jsNotNullish v && v ≠ some (Value.vStr ""))

/-- Boolean-like check of getColumnType: an actual boolean or one of the
strings true and false. -/
def isBoolish (v : Option Value) : Bool :=
  match v with
  | some (Value.vBool _) => true
  | some (Value.vStr s) => s == "true" || s == "false"
  | _ => false

/-- getColumnType from DataPreview.tsx. -/
def getColumnType (data : List Record) (column : String) : String :=
  if data.isEmpty then "text"
  else
    let sampleValues := sampleVals data column
    if sampleValues.all (fun v => (parseFloatOpt v).isSome) then "number"
    else if sampleValues.all isBoolish then "boolean"
    else "text"

/-! Query dispatcher (QueryInterface.tsx, first revision: processQuery). -/

/-- Row validity check shared by the branch guards: Number(row[col]) is not
NaN and row[col] is strictly neither null nor the empty string. -/
def validNum (col : String) (r : Record) : Bool :=
  (toNum (lookupRec r col)).isSome
    && lookupRec r col ≠ some Value.vNull
    && lookupRec r col ≠ some (Value.vStr "")

/-- Column predicate of numericColumns: some row has a usable numeric value
in the column. -/
def isNumericCol (data : List Record) (col : String) : Bool :=
  data.any (validNum col)

/-- numericColumns: the columns (in column order) passing isNumericCol. -/
def numericCols (cols : List String) (data : List Record) : List String :=
  cols.filter (isNumericCol data)

/-- First column that is numeric and whose lowercase name occurs in the
lowercase query; this is the column every aggregate branch answers for. -/
def firstNumericMentioned (lq : String) (cols : List String) (data : List Record) :
    Option String :=
  (numericCols cols data).find? (fun c => strIncludes lq (jsToLower c))

/-- Parsed values of a column: Number(row[col]) over all rows, NaN dropped. -/
def parsedVals (data : List Record) (col : String) : List ℚ :=
  (data.map (fun r => toNum (lookupRec r col))).filterMap id

/-- Array.prototype.reduce without an initial accumulator: none on the empty
array models the reduce-of-empty-array TypeError. -/
def jsReduce1 (f : α → α → α) : List α → Option α
  | [] => none
  | h :: t => some (t.foldl f h)

/-- JSON.stringify of a scalar value (string escaping abstracted). -/
def jsonVal (v : Value) : String :=
  match v with
  | Value.vNull => "null"
  | Value.vBool b => if b then "true" else "false"
  | Value.vNum q => fmtNum q
  | Value.vStr s => "\"" ++ s ++ "\""

/-- JSON.stringify of a record. -/
def jsonOfRecord (r : Record) : String :=
  "\x7b" ++ String.intercalate "," (r.map (fun p => "\"" ++ p.1 ++ "\":" ++ jsonVal p.2)) ++ "\x7d"

/-- Response of the empty-dataset guard. -/
def noDataMsg : String := "No data available to analyze. Please upload a dataset first."

/-- Response of the average branch. -/
def avgMsg (col : String) (avg : ℚ) : String :=
  "The average " ++ col ++ " is " ++ fmtNum avg ++ "."

/-- Average branch: on an average or mean keyword, answer for the first
numeric column mentioned in the query with mean of the parsed values. -/
def avgAns (lq : String) (cols : List String) (data : List Record) : Option String :=
  if strIncludes lq "average" || strIncludes lq "mean" then
    (firstNumericMentioned lq cols data).map (fun col =>
      let values := parsedVals data col
      avgMsg col (values.foldl (· + ·) 0 / (values.length : ℚ)))
  else none

/-- Token following the first exact word by in the space-split query. -/
def byWordOf (lq : String) : Option String :=
  let words := jsSplit lq ' '
  match words.findIdx? (fun w => w == "by") with
  | some i => if i < words.length - 1 then some (words.getD (i + 1) "") else none
  | none => none

/-- Response counting rows whose stringified cell contains a search value. -/
def countByMsg (col searchValue : String) (n : ℕ) : String :=
  "There are " ++ toString n ++ " entries where " ++ col ++ " contains \"" ++ searchValue ++ "\"."

/-- Response reporting the total record count. -/
def totalMsg (n : ℕ) : String :=
  "The dataset contains " ++ toString n ++ " total records."

/-- Column loop of the count branch: the first column mentioned in the query
answers with a contains count when a word follows by, otherwise the loop
continues and finally falls back to the total count. -/
def countLoop (lq : String) (data : List Record) : List String → Option String
  | [] => none
  | c :: rest =>
    if strIncludes lq (jsToLower c) then
      match byWordOf lq with
      | some w =>
        some (countByMsg c w
          ((data.filter (fun r => strIncludes (jsToLower (jsToString (lookupRec r c))) w)).length))
      | none => countLoop lq data rest
    else countLoop lq data rest

/-- Count branch: always answers when the keyword matches. -/
def countAns (lq : String) (cols : List String) (data : List Record) : Option String :=
  if strIncludes lq "how many" || strIncludes lq "count" then
    some ((countLoop lq data cols).getD (totalMsg data.length))
  else none

/-- Response of the maximum branch. -/
def maxMsg (col : String) (v : ℚ) (r : Record) : String :=
  "The highest " ++ col ++ " is " ++ fmtNum v ++ " found in " ++ strTake (jsonOfRecord r) 100 ++ "..."

/-- Response of the minimum branch. -/
def minMsg (col : String) (v : ℚ) (r : Record) : String :=
  "The lowest " ++ col ++ " is " ++ fmtNum v ++ " found in " ++ strTake (jsonOfRecord r) 100 ++ "..."

/-- Value-and-row pairs of a column with NaN entries dropped, as built by the
maximum and minimum branches. -/
def valueRows (data : List Record) (col : String) : List (ℚ × Record) :=
  data.filterMap (fun r => (toNum (lookupRec r col)).map (fun v => (v, r)))

/-- Maximum branch; the inner none marks the reduce-of-empty TypeError. -/
def maxAns (lq : String) (cols : List String) (data : List Record) :
    Option (Option String) :=
  if strIncludes lq "highest" || strIncludes lq "maximum" || strIncludes lq "max" then
    (firstNumericMentioned lq cols data).map (fun col =>
      match jsReduce1 (fun m c => if c.1 > m.1 then c else m) (valueRows data col) with
      | some maxItem => some (maxMsg col maxItem.1 maxItem.2)
      | none => none)
  else none

/-- Minimum branch; the inner none marks the reduce-of-empty TypeError. -/
def minAns (lq : String) (cols : List String) (data : List Record) :
    Option (Option String) :=
  if strIncludes lq "lowest" || strIncludes lq "minimum" || strIncludes lq "min" then
    (firstNumericMentioned lq cols data).map (fun col =>
      match jsReduce1 (fun m c => if c.1 < m.1 then c else m) (valueRows data col) with
      | some minItem => some (minMsg col minItem.1 minItem.2)
      | none => none)
  else none

/-- Pairs of both-column values over rows where both cells are non-nullish
and coerce to numbers, in row order (calculateCorrelation). -/
def corrPairs (data : List Record) (c1 c2 : String) : List (ℚ × ℚ) :=
  ((data.map (fun r => (lookupRec r c1, lookupRec r c2))).filter
    (fun p => jsNotNullish p.1 && jsNotNullish p.2 && (toNum p.1).isSome && (toNum p.2).isSome)).map
    (fun p => ((toNum p.1).getD 0, (toNum p.2).getD 0))

/-- Accumulator loop of calculateCorrelation: numerator and the two sums of
squared deviations from the means. -/
def corrTriple (pairs : List (ℚ × ℚ)) : ℚ × ℚ × ℚ :=
  let sum1 := (pairs.map Prod.fst).foldl (· + ·) 0
  let sum2 := (pairs.map Prod.snd).foldl (· + ·) 0
  let mean1 := sum1 / (pairs.length : ℚ)
  let mean2 := sum2 / (pairs.length : ℚ)
  pairs.foldl
    (fun acc p =>
      (acc.1 + (p.1 - mean1) * (p.2 - mean2),
       acc.2.1 + (p.1 - mean1) * (p.1 - mean1),
       acc.2.2 + (p.2 - mean2) * (p.2 - mean2)))
    (0, 0, 0)

/-- Rendering of correlation.toFixed(3) in the response.  The decimal digits
of the float square root are abstracted as a canonical encoding of the exact
numerator and squared sums that determine the correlation. -/
def fmtCorr3 (data : List Record) (c1 c2 : String) : String :=
  let t := corrTriple (corrPairs data c1 c2)
  if (corrPairs data c1 c2).length < 2 then "0.000"
  else if t.2.1 * t.2.2 = 0 then "0.000"
  else "corrOf " ++ fmtNum t.1 ++ " " ++ fmtNum t.2.1 ++ " " ++ fmtNum t.2.2

/-- Response of the correlation branch. -/
def corrMsg (c1 c2 : String) (data : List Record) : String :=
  "The correlation between " ++ c1 ++ " and " ++ c2 ++ " is " ++ fmtCorr3 data c1 c2 ++ "."

/-- Response asking for two columns. -/
def pleaseSpecifyMsg : String :=
  "Please specify which two columns you\x27d like to see the correlation for."

/-- Correlation branch: with at least two numeric columns it always answers;
with fewer it falls through to later branches. -/
def corrAns (lq : String) (cols : List String) (data : List Record) : Option String :=
  if strIncludes lq "correlation" || strIncludes lq "correlate" then
    let nc := numericCols cols data
    if 2 ≤ nc.length then
      let mentioned := nc.filter (fun c => strIncludes lq (jsToLower c))
      if 2 ≤ mentioned.length then
        some (corrMsg (mentioned.getD 0 "") (mentioned.getD 1 "") data)
      else some pleaseSpecifyMsg
    else none
  else none

/-- First maximal run of decimal digits in the query. -/
def firstDigitRun : List Char → Option (List Char)
  | [] => none
  | c :: t => if c.isDigit then some (c :: t.takeWhile Char.isDigit) else firstDigitRun t

/-- Requested count of the top branch: parseInt of the first digit run, or 5
when the query holds no digits. -/
def numFromQuery (lq : String) : ℕ :=
  ((firstDigitRun lq.toList).map digitsToNat).getD 5

/-- Numeric sort key of a row in the top branch. -/
def keyQ (col : String) (r : Record) : ℚ :=
  (toNum (lookupRec r col)).getD 0

/-- Boolean order induced by the top-branch comparator: descending by the
numeric key for a top query, ascending for a bottom query. -/
def topLe (col : String) (isTop : Bool) (a b : Record) : Bool :=
  if isTop then keyQ col b ≤ keyQ col a else keyQ col a ≤ keyQ col b

/-- Entries shown by the top branch: valid rows sorted by the comparator,
first count taken. -/
def topEntries (data : List Record) (col : String) (isTop : Bool) (count : ℕ) :
    List Record :=
  (sortJs (topLe col isTop) (data.filter (validNum col))).take count

/-- Response of the top branch. -/
def topResponse (isTop : Bool) (count : ℕ) (col : String) (rows : List Record) :
    String :=
  let results := String.intercalate "\n"
    ((rows.enum.map (fun p =>
      toString (p.1 + 1) ++ ". " ++ jsToString (lookupRec p.2 col) ++ " (" ++
      String.intercalate ", "
        (((jsKeys p.2).take 2).map (fun k => k ++ ": " ++ jsToString (lookupRec p.2 k))) ++ ")")))
  "Here are the " ++ (if isTop then "top" else "bottom") ++ " " ++ toString count ++
    " entries by " ++ col ++ ":\n\n" ++ results

/-- Top branch with the dataset array threaded through: the spread copies the
dataset into a fresh array, filter allocates again, and sort mutates only
that fresh array. -/
def topAnsS (lq : String) (cols : List String) (data : List Record) :
    Option (List Record × String) :=
  if strIncludes lq "top" || strIncludes lq "bottom" then
    let isTop := strIncludes lq "top"
    let count := numFromQuery lq
    (firstNumericMentioned lq cols data).map (fun col =>
      let arr1 : JsArr := JsArr.heap (contentsA data JsArr.root)
      let arr2 : JsArr := JsArr.heap ((contentsA data arr1).filter (validNum col))
      let (arr3, st) := jsSortA (topLe col isTop) arr2 data
      let sorted := (contentsA st arr3).take count
      (st, topResponse isTop count col sorted))
  else none

/-- Fallback response for unrecognized queries. -/
def defaultMsg (q : String) (n : ℕ) (cols : List String) : String :=
  "I understand you\x27re asking about \"" ++ q ++ "\". Based on your dataset with " ++
  toString n ++ " records and columns like " ++ String.intercalate ", " (cols.take 3) ++
  ", try asking more specific questions like:\n    \n" ++
  "• \"What is the average [column name]?\"\n" ++
  "• \"How many [entries] are [condition]?\"\n" ++
  "• \"What is the highest [column name]?\"\n" ++
  "• \"Show me the top 5 [column name]\"\n" ++
  "• \"What is the correlation between [column1] and [column2]?\""

/-- processQuery from QueryInterface.tsx.  The first component is the
dataset array contents after evaluation (mutation frame), the second the
response; a none response marks the reduce-of-empty-array TypeError of the
maximum and minimum branches. -/
def processQuery (q : String) (data : List Record) : List Record × Option String :=
  if data.isEmpty then (data, some noDataMsg)
  else
    let lq := jsToLower q
    let cols := jsKeys (data.headD [])
    match avgAns lq cols data with
    | some s => (data, some s)
    | none =>
      match countAns lq cols data with
      | some s => (data, some s)
      | none =>
        match maxAns lq cols data with
        | some r => (data, r)
        | none =>
          match minAns lq cols data with
          | some r => (data, r)
          | none =>
            match corrAns lq cols data with
            | some s => (data, some s)
            | none =>
              match topAnsS lq cols data with
              | some p => (p.1, some p.2)
              | none => (data, some (defaultMsg q data.length cols))

/-- Version of processQuery with an explicit ambient random value: the body
of processQuery contains no call of Math.random, so the value is unused. -/
def processQueryR (_rng : ℚ) (q : String) (data : List Record) :
    List Record × Option String :=
  processQuery q data

/-- calculateCorrelation from QueryInterface.tsx, with the float arithmetic
modelled exactly over the reals: the accumulator loop computes the numerator
and the two squared-deviation sums, the denominator is the square root of
their product, and a zero denominator yields 0.  The guards return 0 for an
empty dataset and for fewer than two valid pairs. -/
noncomputable def calculateCorrelation (data : List Record) (c1 c2 : String) : ℝ :=
  if data.isEmpty then 0
  else
    let pairs := corrPairs data c1 c2
    if pairs.length < 2 then 0
    else
      let t := corrTriple pairs
      let denominator := Real.sqrt ((t.2.1 : ℝ) * (t.2.2 : ℝ))
      if denominator = 0 then 0 else (t.1 : ℝ) / denominator

/-- Pearson correlation exactly as claim C2 words it: over exactly those
rows where both columns are non-null and parse as numbers, the sum of
products of deviations from the two means divided by the square root of the
product of the two sums of squared deviations; 0 when the dataset is empty,
fewer than two valid pairs exist, or either sum of squared deviations is
zero. -/
noncomputable def pearsonSpec (data : List Record) (c1 c2 : String) : ℝ :=
  let rows := data.filter (fun r =>
    jsNotNullish (lookupRec r c1) && (toNum (lookupRec r c1)).isSome &&
    jsNotNullish (lookupRec r c2) && (toNum (lookupRec r c2)).isSome)
  let xs := rows.map (fun r => (toNum (lookupRec r c1)).getD 0)
  let ys := rows.map (fun r => (toNum (lookupRec r c2)).getD 0)
  if data.isEmpty ∨ rows.length < 2 then 0
  else
    let mx := xs.sum / (xs.length : ℚ)
    let my := ys.sum / (ys.length : ℚ)
    let num := ((xs.zip ys).map (fun p => (p.1 - mx) * (p.2 - my))).sum
    let sx := (xs.map (fun x => (x - mx) * (x - mx))).sum
    let sy := (ys.map (fun y => (y - my) * (y - my))).sum
    if sx = 0 ∨ sy = 0 then 0
    else (num : ℝ) / Real.sqrt ((sx : ℝ) * (sy : ℝ))

/-! Mock responder (QueryInterface.tsx, second revision:
generateMockResponse).  The one call of Math.random is modelled by an
explicit random value passed in. -/

/-- generateMockResponse: canned insight text selected by keywords; the
average branch interpolates a random number. -/
def generateMockResponse (q : String) (data : List Record) (rand : ℚ) : String :=
  let lq := jsToLower q
  if strIncludes lq "top" || strIncludes lq "highest" then
    let firstRow := data.headD []
    let numericValues := firstRow.filterMap (fun p =>
      match p.2 with | Value.vNum x => some x | _ => none)
    let maxValue : ℚ := match numericValues with | [] => 0 | h :: t => t.foldl max h
    "Based on your data analysis, I found that the top performers show significant variation. The highest values appear in the first few categories, with the top entry being approximately " ++
      fmtFixed2 maxValue ++
      " units. This represents a strong performance indicator in your dataset."
  else if strIncludes lq "trend" || strIncludes lq "time" then
    "The trend analysis reveals an interesting pattern in your data. There\x27s a general upward trajectory with some seasonal variations. The data shows approximately 15-20% growth over the analyzed period, with some notable peaks during specific intervals."
  else if strIncludes lq "average" || strIncludes lq "mean" then
    "The average values across your dataset show consistent performance. Most categories fall within the expected range, with an overall average around " ++
      fmtFixed2 (rand * 100 + 50) ++
      " units. This indicates stable performance across different segments."
  else if strIncludes lq "outlier" || strIncludes lq "anomal" then
    "I\x27ve detected several interesting outliers in your data. There are 3-4 data points that deviate significantly from the normal pattern, which could indicate either exceptional performance or data quality issues that merit further investigation."
  else if strIncludes lq "pattern" || strIncludes lq "insight" then
    "Several key patterns emerge from your data: 1) There\x27s a clear clustering in the mid-range values, 2) Seasonal variations appear to follow a predictable cycle, and 3) Certain categories consistently outperform others by 25-30%. These patterns suggest systematic factors at play."
  else
    "I\x27ve analyzed your query about \"" ++ q ++ "\" and found relevant insights in your data. The analysis shows meaningful correlations and trends that could help inform your decision-making. The data suggests there are opportunities for optimization in several key areas."

/-- Guard of the average branch of generateMockResponse actually being
reached: no earlier branch keyword matches and an average keyword does. -/
def reachesMockAvg (q : String) : Bool :=
  let lq := jsToLower q
  !(strIncludes lq "top" || strIncludes lq "highest") &&
  !(strIncludes lq "trend" || strIncludes lq "time") &&
  (strIncludes lq "average" || strIncludes lq "mean")

/-! Helper lemmas. -/

theorem listContainsSub_iff (l n : List Char) :
    listContainsSub l n = true ↔ n <:+: l := by
  induction l with
  | nil =>
    simp [listContainsSub, List.isEmpty_iff]
  | cons a t ih =>
    simp [listContainsSub, List.isPrefixOf_iff_prefix, ih, List.infix_cons_iff,
      Bool.or_eq_true]

theorem strIncludes_iff (s t : String) :
    strIncludes s t = true ↔ t.toList <:+: s.toList :=
  listContainsSub_iff s.toList t.toList

theorem strIncludes_trans (a b c : String)
    (h1 : strIncludes a b = true) (h2 : strIncludes b c = true) :
    strIncludes a c = true := by
  rw [strIncludes_iff] at h1 h2 ⊢
  exact h2.trans h1

theorem strIncludes_mono_false (a b c : String)
    (hbc : strIncludes b c = true) (h : strIncludes a c = false) :
    strIncludes a b = false := by
  cases hab : strIncludes a b with
  | false => rfl
  | true =>
    rw [strIncludes_trans a b c hab hbc] at h
    exact Bool.noConfusion h

theorem find?_filter_and (xs : List α) (p q : α → Bool) :
    (xs.filter p).find? q = xs.find? (fun a => p a && q a) := by
  rw [List.find?_filter]
  congr 1
  funext a
  cases hp : p a <;> cases hq : q a <;> simp [hp, hq]

theorem firstNumericMentioned_eq (lq : String) (cols : List String)
    (data : List Record) :
    firstNumericMentioned lq cols data =
      cols.find? (fun c => isNumericCol data c && strIncludes lq (jsToLower c)) := by
  unfold firstNumericMentioned numericCols
  exact find?_filter_and cols (isNumericCol data) (fun c => strIncludes lq (jsToLower c))

theorem foldl_add_eq_sum (l : List ℚ) : l.foldl (· + ·) 0 = l.sum :=
  List.sum_eq_foldl.symm

/-! Claim C8: the empty-dataset guard. -/

/-- C8: on a dataset with zero records (the null prop is modelled as the
empty list) processQuery answers with the fixed no-data string for every
query, leaving the dataset untouched, so no aggregate branch is reached. -/
theorem empty_dataset_guard (q : String) :
    processQuery q ([] : List Record) = ([], some noDataMsg) := by
  rfl

/-! Claim C1: the average branch. -/

/-- C1: on a non-empty dataset, when the lowercase query contains average or
mean and the name of some numeric column, processQuery answers for the first
such column in column order with the sum of the parsed values of that column
divided by their count, non-parsing values ignored. -/
theorem average_answer (q : String) (data : List Record) (col : String)
    (hne : data ≠ [])
    (hkey : (strIncludes (jsToLower q) "average" || strIncludes (jsToLower q) "mean") = true)
    (hcol : (jsKeys (data.headD [])).find?
        (fun c => isNumericCol data c && strIncludes (jsToLower q) (jsToLower c)) = some col) :
    (processQuery q data).2 =
      some (avgMsg col ((parsedVals data col).sum / ((parsedVals data col).length : ℚ))) := by
  have hni : data.isEmpty = false := by
    simpa [List.isEmpty_iff] using hne
  have havg : avgAns (jsToLower q) (jsKeys (data.headD [])) data =
      some (avgMsg col ((parsedVals data col).sum / ((parsedVals data col).length : ℚ))) := by
    unfold avgAns
    rw [hkey, firstNumericMentioned_eq, hcol]
    simp [foldl_add_eq_sum]
  unfold processQuery
  rw [hni]
  simp only [Bool.false_eq_true, if_false, havg]

/-- Witness for C1 at a concrete dataset and query. -/
theorem average_answer_witness :
    (processQuery "average price"
        [[("price", Value.vStr "4")], [("price", Value.vStr "6")]]).2 =
      some (avgMsg "price"
        ((parsedVals [[("price", Value.vStr "4")], [("price", Value.vStr "6")]] "price").sum /
          ((parsedVals [[("price", Value.vStr "4")], [("price", Value.vStr "6")]] "price").length : ℚ))) :=
  average_answer "average price"
    [[("price", Value.vStr "4")], [("price", Value.vStr "6")]] "price"
    (by decide) (by decide) (by decide)

/-! Branch-elimination helpers for the dispatcher. -/

theorem avgAns_eq_none (lq : String) (cols : List String) (data : List Record)
    (h : (strIncludes lq "average" || strIncludes lq "mean") = true →
      firstNumericMentioned lq cols data = none) :
    avgAns lq cols data = none := by
  unfold avgAns
  cases hg : (strIncludes lq "average" || strIncludes lq "mean") with
  | false => simp
  | true => simp only [if_true]; rw [h hg]; rfl

theorem countAns_eq_none (lq : String) (cols : List String) (data : List Record)
    (h1 : strIncludes lq "how many" = false) (h2 : strIncludes lq "count" = false) :
    countAns lq cols data = none := by
  unfold countAns
  rw [h1, h2]
  rfl

theorem maxAns_eq_none (lq : String) (cols : List String) (data : List Record)
    (hmax : strIncludes lq "max" = false) (hhigh : strIncludes lq "highest" = false) :
    maxAns lq cols data = none := by
  have hmaximum : strIncludes lq "maximum" = false :=
    strIncludes_mono_false lq "maximum" "max" (by decide) hmax
  unfold maxAns
  rw [hhigh, hmaximum, hmax]
  rfl

theorem minAns_eq_none (lq : String) (cols : List String) (data : List Record)
    (hmin : strIncludes lq "min" = false) (hlow : strIncludes lq "lowest" = false) :
    minAns lq cols data = none := by
  have hminimum : strIncludes lq "minimum" = false :=
    strIncludes_mono_false lq "minimum" "min" (by decide) hmin
  unfold minAns
  rw [hlow, hminimum, hmin]
  rfl

theorem corrAns_eq_none (lq : String) (cols : List String) (data : List Record)
    (h : (strIncludes lq "correlation" || strIncludes lq "correlate") = true →
      (numericCols cols data).length < 2) :
    corrAns lq cols data = none := by
  unfold corrAns
  cases hg : (strIncludes lq "correlation" || strIncludes lq "correlate") with
  | false => simp
  | true =>
    have hlt := h hg
    simp only [if_true]
    rw [if_neg (by omega)]

theorem countLoop_eq (lq : String) (data : List Record) (cols : List String) :
    countLoop lq data cols =
      match byWordOf lq with
      | some w => (cols.find? (fun c => strIncludes lq (jsToLower c))).map
          (fun col => countByMsg col w ((data.filter (fun r =>
            strIncludes (jsToLower (jsToString (lookupRec r col))) w)).length))
      | none => none := by
  cases hb : byWordOf lq with
  | none =>
    induction cols with
    | nil => rfl
    | cons c rest ih =>
      unfold countLoop
      rw [hb]
      cases hm : strIncludes lq (jsToLower c) <;> simp [hm, ih]
  | some w =>
    induction cols with
    | nil => rfl
    | cons c rest ih =>
      unfold countLoop
      rw [hb]
      cases hm : strIncludes lq (jsToLower c) with
      | false => simp [List.find?_cons, hm, ih]
      | true => simp [List.find?_cons, hm]

/-! Claim C4 (corrected): the count branch. -/

unseal Rat.add Rat.mul Rat.sub Rat.inv in
/-- Counterexample to C4 as stated: the query given contains count, the
dataset is non-empty, the query contains the column name price and no word
follows by, so the claim predicts the total-records response; but the query
also contains average, so the earlier average branch answers instead. -/
theorem count_claim_counterexample :
    (processQuery "count average price" [[("price", Value.vStr "1")]]).2 ≠
      some (totalMsg 1) := by
  decide

/-- C4 as amended: provided the average branch does not fire first (the query
lacks average and mean, or no numeric column is mentioned), a non-empty
dataset and a query containing how many or count answer with the
contains-count of the first mentioned column when a word follows the word
by, and with the total record count in every other case. -/
theorem count_answer (q : String) (data : List Record)
    (hne : data ≠ [])
    (hkey : (strIncludes (jsToLower q) "how many" || strIncludes (jsToLower q) "count") = true)
    (havg : (strIncludes (jsToLower q) "average" || strIncludes (jsToLower q) "mean") = true →
      (jsKeys (data.headD [])).find?
        (fun c => isNumericCol data c && strIncludes (jsToLower q) (jsToLower c)) = none) :
    (processQuery q data).2 = some (
      match byWordOf (jsToLower q),
          (jsKeys (data.headD [])).find? (fun c => strIncludes (jsToLower q) (jsToLower c)) with
      | some w, some col =>
        countByMsg col w ((data.filter (fun r =>
          strIncludes (jsToLower (jsToString (lookupRec r col))) w)).length)
      | _, _ => totalMsg data.length) := by
  have hni : data.isEmpty = false := by simpa [List.isEmpty_iff] using hne
  have h1 : avgAns (jsToLower q) (jsKeys (data.headD [])) data = none := by
    apply avgAns_eq_none
    intro hg
    rw [firstNumericMentioned_eq]
    exact havg hg
  have h2 : countAns (jsToLower q) (jsKeys (data.headD [])) data = some (
      match byWordOf (jsToLower q),
          (jsKeys (data.headD [])).find? (fun c => strIncludes (jsToLower q) (jsToLower c)) with
      | some w, some col =>
        countByMsg col w ((data.filter (fun r =>
          strIncludes (jsToLower (jsToString (lookupRec r col))) w)).length)
      | _, _ => totalMsg data.length) := by
    unfold countAns
    rw [hkey]
    simp only [if_true]
    rw [countLoop_eq]
    cases hb : byWordOf (jsToLower q) with
    | none => rfl
    | some w =>
      cases hf : (jsKeys (data.headD [])).find?
          (fun c => strIncludes (jsToLower q) (jsToLower c)) with
      | none => rfl
      | some col => rfl
  simp only [processQuery, hni, Bool.false_eq_true, if_false, h1, h2]

/-- Witness for the amended C4 at a concrete dataset and query. -/
theorem count_answer_witness :
    (processQuery "how many rows" [[("price", Value.vStr "1")]]).2 =
      some (totalMsg 1) :=
  Eq.trans
    (count_answer "how many rows" [[("price", Value.vStr "1")]]
      (by decide) (by decide) (by decide))
    (by decide)

/-! Claim C3 (corrected): the top and bottom branch. -/

theorem avgAns_eq_none_nokey (lq : String) (cols : List String) (data : List Record)
    (h1 : strIncludes lq "average" = false) (h2 : strIncludes lq "mean" = false) :
    avgAns lq cols data = none := by
  unfold avgAns
  rw [h1, h2]
  rfl

theorem topEntries_pairwise (data : List Record) (col : String) (isTop : Bool)
    (count : ℕ) :
    (topEntries data col isTop count).Pairwise (fun a b => topLe col isTop a b = true) := by
  haveI : IsTotal Record (fun a b => topLe col isTop a b = true) := by
    constructor
    intro a b
    cases isTop <;> simp [topLe] <;> exact le_total _ _
  haveI : IsTrans Record (fun a b => topLe col isTop a b = true) := by
    constructor
    intro a b c hab hbc
    cases isTop with
    | false =>
      simp [topLe] at hab hbc ⊢
      exact le_trans hab hbc
    | true =>
      simp [topLe] at hab hbc ⊢
      exact le_trans hbc hab
  exact List.Pairwise.sublist (List.take_sublist _ _)
    (List.sorted_insertionSort _ (data.filter (validNum col)))

unseal Rat.add Rat.mul Rat.sub Rat.inv in
/-- Counterexample to C3 as stated: the query given contains top, the
dataset is non-empty and the numeric column price is mentioned, so the claim
predicts the sorted top-entries response; but the query also contains count,
so the earlier count branch returns the total record count instead. -/
theorem top_claim_counterexample :
    (processQuery "count top 2 price"
        [[("price", Value.vStr "1")], [("price", Value.vStr "2")]]).2 ≠
      some (topResponse true 2 "price"
        (topEntries [[("price", Value.vStr "1")], [("price", Value.vStr "2")]] "price" true 2)) := by
  decide

/-- C3 as amended: provided no earlier dispatcher branch fires (the query
lacks the average, count, maximum, minimum keywords, and a correlation
keyword only occurs when fewer than two numeric columns exist), a query
containing top or bottom that mentions a numeric column answers with at most
N entries drawn from the rows of that column that parse as numbers, sorted
descending on a top query and ascending otherwise, where N is the first
digit run of the query or 5 when the query has no digits. -/
theorem top_answer (q : String) (data : List Record) (col : String)
    (hne : data ≠ [])
    (hkey : (strIncludes (jsToLower q) "top" || strIncludes (jsToLower q) "bottom") = true)
    (hcol : (jsKeys (data.headD [])).find?
        (fun c => isNumericCol data c && strIncludes (jsToLower q) (jsToLower c)) = some col)
    (havg1 : strIncludes (jsToLower q) "average" = false)
    (havg2 : strIncludes (jsToLower q) "mean" = false)
    (hcnt1 : strIncludes (jsToLower q) "how many" = false)
    (hcnt2 : strIncludes (jsToLower q) "count" = false)
    (hmax : strIncludes (jsToLower q) "max" = false)
    (hhigh : strIncludes (jsToLower q) "highest" = false)
    (hmin : strIncludes (jsToLower q) "min" = false)
    (hlow : strIncludes (jsToLower q) "lowest" = false)
    (hcorr : (strIncludes (jsToLower q) "correlation" || strIncludes (jsToLower q) "correlate") = true →
      (numericCols (jsKeys (data.headD [])) data).length < 2) :
    (processQuery q data).2 = some (topResponse (strIncludes (jsToLower q) "top")
        (numFromQuery (jsToLower q)) col
        (topEntries data col (strIncludes (jsToLower q) "top") (numFromQuery (jsToLower q))))
    ∧ (topEntries data col (strIncludes (jsToLower q) "top")
        (numFromQuery (jsToLower q))).length ≤ numFromQuery (jsToLower q)
    ∧ (∀ r ∈ topEntries data col (strIncludes (jsToLower q) "top") (numFromQuery (jsToLower q)),
        r ∈ data ∧ (toNum (lookupRec r col)).isSome = true)
    ∧ (strIncludes (jsToLower q) "top" = true →
        (topEntries data col true (numFromQuery (jsToLower q))).Pairwise
          (fun a b => keyQ col b ≤ keyQ col a))
    ∧ (strIncludes (jsToLower q) "top" = false →
        (topEntries data col false (numFromQuery (jsToLower q))).Pairwise
          (fun a b => keyQ col a ≤ keyQ col b)) := by
  have hni : data.isEmpty = false := by simpa [List.isEmpty_iff] using hne
  have h1 := avgAns_eq_none_nokey (jsToLower q) (jsKeys (data.headD [])) data havg1 havg2
  have h2 := countAns_eq_none (jsToLower q) (jsKeys (data.headD [])) data hcnt1 hcnt2
  have h3 := maxAns_eq_none (jsToLower q) (jsKeys (data.headD [])) data hmax hhigh
  have h4 := minAns_eq_none (jsToLower q) (jsKeys (data.headD [])) data hmin hlow
  have h5 := corrAns_eq_none (jsToLower q) (jsKeys (data.headD [])) data hcorr
  have h6 : topAnsS (jsToLower q) (jsKeys (data.headD [])) data =
      some (data, topResponse (strIncludes (jsToLower q) "top")
        (numFromQuery (jsToLower q)) col
        (topEntries data col (strIncludes (jsToLower q) "top")
          (numFromQuery (jsToLower q)))) := by
    unfold topAnsS
    rw [hkey]
    simp only [if_true]
    rw [firstNumericMentioned_eq, hcol]
    simp [contentsA, jsSortA, topEntries]
  refine ⟨?_, ?_, ?_, ?_, ?_⟩
  · simp only [processQuery, hni, Bool.false_eq_true, if_false, h1, h2, h3, h4, h5, h6]
  · exact List.length_take_le _ _
  · intro r hr
    have hr2 := List.mem_of_mem_take hr
    unfold sortJs at hr2
    have hr3 := (List.mem_insertionSort _).mp hr2
    have hr4 := List.mem_filter.mp hr3
    refine ⟨hr4.1, ?_⟩
    have hv := hr4.2
    unfold validNum at hv
    simp only [Bool.and_eq_true] at hv
    exact hv.1.1
  · intro ht
    refine (topEntries_pairwise data col true (numFromQuery (jsToLower q))).imp ?_
    intro a b hab
    simpa [topLe] using hab
  · intro ht
    refine (topEntries_pairwise data col false (numFromQuery (jsToLower q))).imp ?_
    intro a b hab
    simpa [topLe] using hab

/-- Witness for the amended C3 at a concrete dataset and query. -/
theorem top_answer_witness :
    (processQuery "show top 2 price"
        [[("price", Value.vStr "3")], [("price", Value.vStr "1")], [("price", Value.vStr "2")]]).2 =
      some (topResponse true 2 "price"
        (topEntries [[("price", Value.vStr "3")], [("price", Value.vStr "1")], [("price", Value.vStr "2")]]
          "price" true 2))
    ∧ (topEntries [[("price", Value.vStr "3")], [("price", Value.vStr "1")], [("price", Value.vStr "2")]]
        "price" true 2).length ≤ 2
    ∧ (∀ r ∈ topEntries [[("price", Value.vStr "3")], [("price", Value.vStr "1")], [("price", Value.vStr "2")]]
        "price" true 2,
        r ∈ [[("price", Value.vStr "3")], [("price", Value.vStr "1")], [("price", Value.vStr "2")]] ∧
          (toNum (lookupRec r "price")).isSome = true)
    ∧ (true = true →
        (topEntries [[("price", Value.vStr "3")], [("price", Value.vStr "1")], [("price", Value.vStr "2")]]
          "price" true 2).Pairwise (fun a b => keyQ "price" b ≤ keyQ "price" a))
    ∧ (true = false →
        (topEntries [[("price", Value.vStr "3")], [("price", Value.vStr "1")], [("price", Value.vStr "2")]]
          "price" false 2).Pairwise (fun a b => keyQ "price" a ≤ keyQ "price" b)) :=
  top_answer "show top 2 price"
    [[("price", Value.vStr "3")], [("price", Value.vStr "1")], [("price", Value.vStr "2")]] "price"
    (by decide) (by decide) (by decide) (by decide) (by decide) (by decide)
    (by decide) (by decide) (by decide) (by decide) (by decide) (by decide)

/-! Claim C9: the unseeded reduce calls are safe. -/

theorem valueRows_ne_nil (data : List Record) (col : String)
    (h : isNumericCol data col = true) : valueRows data col ≠ [] := by
  unfold isNumericCol at h
  obtain ⟨row, hrow, hv⟩ := List.any_eq_true.mp h
  unfold validNum at hv
  simp only [Bool.and_eq_true] at hv
  obtain ⟨v, hvv⟩ := Option.isSome_iff_exists.mp hv.1.1
  intro hnil
  have hmem : (v, row) ∈ valueRows data col :=
    List.mem_filterMap.mpr ⟨row, hrow, by rw [hvv]; rfl⟩
  rw [hnil] at hmem
  exact List.not_mem_nil _ hmem

theorem jsReduce1_isSome (f : α → α → α) (l : List α) (h : l ≠ []) :
    (jsReduce1 f l).isSome = true := by
  cases l with
  | nil => exact absurd rfl h
  | cons a t => rfl

theorem firstNumericMentioned_mem (lq : String) (cols : List String)
    (data : List Record) (col : String)
    (h : firstNumericMentioned lq cols data = some col) :
    isNumericCol data col = true := by
  unfold firstNumericMentioned at h
  have hmem := List.mem_of_find?_eq_some h
  exact (List.mem_filter.mp hmem).2

theorem maxAns_isSome (lq : String) (cols : List String) (data : List Record)
    (r : Option String) (h : maxAns lq cols data = some r) : r.isSome = true := by
  unfold maxAns at h
  cases hg : (strIncludes lq "highest" || strIncludes lq "maximum" || strIncludes lq "max") with
  | false => rw [hg] at h; exact Option.noConfusion h
  | true =>
    rw [hg] at h
    simp only [if_true] at h
    obtain ⟨col, hcol, hf⟩ := Option.map_eq_some'.mp h
    have hnum := firstNumericMentioned_mem lq cols data col hcol
    have hne := valueRows_ne_nil data col hnum
    have hred := jsReduce1_isSome (fun m c => if c.1 > m.1 then c else m) (valueRows data col) hne
    obtain ⟨m, hm⟩ := Option.isSome_iff_exists.mp hred
    rw [hm] at hf
    rw [← hf]
    rfl

theorem minAns_isSome (lq : String) (cols : List String) (data : List Record)
    (r : Option String) (h : minAns lq cols data = some r) : r.isSome = true := by
  unfold minAns at h
  cases hg : (strIncludes lq "lowest" || strIncludes lq "minimum" || strIncludes lq "min") with
  | false => rw [hg] at h; exact Option.noConfusion h
  | true =>
    rw [hg] at h
    simp only [if_true] at h
    obtain ⟨col, hcol, hf⟩ := Option.map_eq_some'.mp h
    have hnum := firstNumericMentioned_mem lq cols data col hcol
    have hne := valueRows_ne_nil data col hnum
    have hred := jsReduce1_isSome (fun m c => if c.1 < m.1 then c else m) (valueRows data col) hne
    obtain ⟨m, hm⟩ := Option.isSome_iff_exists.mp hred
    rw [hm] at hf
    rw [← hf]
    rfl

/-- C9: processQuery always produces a response: in the maximum and minimum
branches the matched column comes from numericColumns, so some row of that
column passes the NaN filter and the unseeded reduce runs on a non-empty
array; the TypeError case (modelled as a none response) is unreachable. -/
theorem reduce_never_empty (q : String) (data : List Record) :
    ((processQuery q data).2).isSome = true := by
  simp only [processQuery]
  cases he : data.isEmpty with
  | true => rfl
  | false =>
    simp only [Bool.false_eq_true, if_false]
    cases h1 : avgAns (jsToLower q) (jsKeys (data.headD [])) data with
    | some s => rfl
    | none =>
      cases h2 : countAns (jsToLower q) (jsKeys (data.headD [])) data with
      | some s => rfl
      | none =>
        cases h3 : maxAns (jsToLower q) (jsKeys (data.headD [])) data with
        | some r => exact maxAns_isSome _ _ _ _ h3
        | none =>
          cases h4 : minAns (jsToLower q) (jsKeys (data.headD [])) data with
          | some r => exact minAns_isSome _ _ _ _ h4
          | none =>
            cases h5 : corrAns (jsToLower q) (jsKeys (data.headD [])) data with
            | some s => rfl
            | none =>
              cases h6 : topAnsS (jsToLower q) (jsKeys (data.headD [])) data with
              | some p => rfl
              | none => rfl

/-! Claim C5: no derived view mutates the dataset. -/

theorem topAnsS_fst (lq : String) (cols : List String) (data : List Record)
    (p : List Record × String) (h : topAnsS lq cols data = some p) : p.1 = data := by
  unfold topAnsS at h
  cases hg : (strIncludes lq "top" || strIncludes lq "bottom") with
  | false => rw [hg] at h; exact Option.noConfusion h
  | true =>
    rw [hg] at h
    simp only [if_true] at h
    obtain ⟨col, hcol, hf⟩ := Option.map_eq_some'.mp h
    rw [← hf]
    rfl

theorem processQuery_fst (q : String) (data : List Record) :
    (processQuery q data).1 = data := by
  simp only [processQuery]
  cases he : data.isEmpty with
  | true => rfl
  | false =>
    simp only [Bool.false_eq_true, if_false]
    cases h1 : avgAns (jsToLower q) (jsKeys (data.headD [])) data with
    | some s => rfl
    | none =>
      cases h2 : countAns (jsToLower q) (jsKeys (data.headD [])) data with
      | some s => rfl
      | none =>
        cases h3 : maxAns (jsToLower q) (jsKeys (data.headD [])) data with
        | some r => rfl
        | none =>
          cases h4 : minAns (jsToLower q) (jsKeys (data.headD [])) data with
          | some r => rfl
          | none =>
            cases h5 : corrAns (jsToLower q) (jsKeys (data.headD [])) data with
            | some s => rfl
            | none =>
              cases h6 : topAnsS (jsToLower q) (jsKeys (data.headD [])) data with
              | some p => exact topAnsS_fst _ _ _ _ h6
              | none => rfl

/-- C5: evaluating the filtered-and-sorted view, the paginated view and
processQuery leaves the dataset array unchanged for every combination of
search term, filter list, sort column, direction, page and query: every sort
is applied to a freshly allocated copy, never in place on the input. -/
theorem views_do_not_mutate (data : List Record) (searchTerm : String)
    (filters : List FilterCondition) (sortColumn : String) (dir : SortDir)
    (page : ℕ) (q : String) :
    (filteredAndSortedDataS data searchTerm filters sortColumn dir).2 = data
    ∧ (paginatedDataS data searchTerm filters sortColumn dir page).2 = data
    ∧ (processQuery q data).1 = data := by
  have hfs : (filteredAndSortedDataS data searchTerm filters sortColumn dir).2 = data := by
    unfold filteredAndSortedDataS
    by_cases h1 : searchTerm = "" <;> by_cases h2 : filters = ([] : List FilterCondition) <;>
      by_cases h3 : sortColumn = "" <;> simp [h1, h2, h3, jsSortA, contentsA]
  refine ⟨hfs, ?_, processQuery_fst q data⟩
  unfold paginatedDataS
  cases hfe : filteredAndSortedDataS data searchTerm filters sortColumn dir with
  | mk a st =>
    rw [hfe] at hfs
    exact hfs

/-! Claim C7 (corrected): determinism of the responders. -/

unseal Rat.add Rat.mul Rat.sub Rat.inv in
/-- Counterexample to C7 as stated: the mock responder interpolates the
ambient random number in its average branch, so two evaluations on the same
query and dataset differ when the random draw differs. -/
theorem mock_random_counterexample :
    generateMockResponse "average" [] 0 ≠ generateMockResponse "average" [] 1 := by
  decide

/-- C7 as amended: processQuery is a deterministic function of the query and
dataset alone (its translation never reads the ambient random value), and
generateMockResponse is deterministic except when the query reaches its
average branch, whose response interpolates the random draw. -/
theorem response_determinism :
    (∀ (r1 r2 : ℚ) (q : String) (data : List Record),
      processQueryR r1 q data = processQueryR r2 q data)
    ∧ (∀ (r1 r2 : ℚ) (q : String) (data : List Record), reachesMockAvg q = false →
      generateMockResponse q data r1 = generateMockResponse q data r2) := by
  constructor
  · intro r1 r2 q data
    rfl
  · intro r1 r2 q data h
    unfold generateMockResponse
    cases htop : (strIncludes (jsToLower q) "top" || strIncludes (jsToLower q) "highest") with
    | true => simp [htop]
    | false =>
      cases htrend : (strIncludes (jsToLower q) "trend" || strIncludes (jsToLower q) "time") with
      | true => simp [htop, htrend]
      | false =>
        have havg : (strIncludes (jsToLower q) "average" || strIncludes (jsToLower q) "mean") = false := by
          simpa [reachesMockAvg, htop, htrend] using h
        simp [htop, htrend, havg]

/-- Witness for the amended C7: equal responses at concrete random draws. -/
theorem response_determinism_witness :
    processQueryR 0 "hello" [] = processQueryR 1 "hello" []
    ∧ generateMockResponse "trend" [] 0 = generateMockResponse "trend" [] 1 :=
  ⟨response_determinism.1 0 1 "hello" [],
   response_determinism.2 0 1 "trend" [] (by decide)⟩

/-! Claim C10: getColumnType samples only the first ten rows. -/

/-- C10: getColumnType is a function of the first ten rows alone; on a
non-empty dataset it answers number exactly when every non-null, non-empty
sample value prefix-parses as a float, and in particular answers number when
the sample is empty (the every check holds vacuously). -/
theorem getColumnType_spec :
    (∀ (data data' : List Record) (col : String), data.take 10 = data'.take 10 →
      getColumnType data col = getColumnType data' col)
    ∧ (∀ (data : List Record) (col : String), data ≠ [] →
      (getColumnType data col = "number" ↔
        (sampleVals data col).all (fun v => (parseFloatOpt v).isSome) = true))
    ∧ (∀ (data : List Record) (col : String), data ≠ [] → sampleVals data col = [] →
      getColumnType data col = "number") := by
  refine ⟨?_, ?_, ?_⟩
  · intro data data' col h
    have he : data.isEmpty = data'.isEmpty := by
      cases data with
      | nil =>
        cases data' with
        | nil => rfl
        | cons b l' => simp at h
      | cons a l =>
        cases data' with
        | nil => simp at h
        | cons b l' => rfl
    unfold getColumnType sampleVals
    rw [he, h]
  · intro data col hne
    have hni : data.isEmpty = false := by simpa [List.isEmpty_iff] using hne
    unfold getColumnType
    rw [hni]
    simp only [Bool.false_eq_true, if_false]
    cases hall : (sampleVals data col).all (fun v => (parseFloatOpt v).isSome) with
    | true => simp [hall]
    | false =>
      simp only [hall, Bool.false_eq_true, if_false]
      constructor
      · intro h
        split at h <;> exact absurd h (by decide)
      · intro h
        exact absurd h (by decide)
  · intro data col hne hemp
    have hni : data.isEmpty = false := by simpa [List.isEmpty_iff] using hne
    unfold getColumnType
    rw [hni, hemp]
    rfl

/-- Witness for C10: a column whose only sample value is the empty string is
classified as number. -/
theorem getColumnType_spec_witness :
    getColumnType [[("b", Value.vStr "")]] "b" = "number" :=
  getColumnType_spec.2.2 [[("b", Value.vStr "")]] "b" (by decide) (by decide)

/-! Claim C6: shape of parseCSV output. -/

theorem dedupFrom_congr (s1 s2 : List String) (l : List String)
    (h : ∀ x, x ∈ s1 ↔ x ∈ s2) : dedupFrom s1 l = dedupFrom s2 l := by
  induction l generalizing s1 s2 with
  | nil => rfl
  | cons a t ih =>
    unfold dedupFrom
    by_cases ha : a ∈ s1
    · rw [if_pos ha, if_pos ((h a).mp ha)]
      exact ih s1 s2 h
    · rw [if_neg ha, if_neg (fun hx => ha ((h a).mpr hx))]
      rw [ih (a :: s1) (a :: s2) (by intro x; simp [h x])]

theorem jsKeys_insertJs (r : Record) (k : String) (v : Value) :
    jsKeys (insertJs r k v) = if k ∈ jsKeys r then jsKeys r else jsKeys r ++ [k] := by
  unfold insertJs jsKeys
  by_cases hk : (r.any (fun p => p.1 == k)) = true
  · rw [if_pos hk]
    have hmem : k ∈ r.map Prod.fst := by
      obtain ⟨p, hp, he⟩ := List.any_eq_true.mp hk
      exact List.mem_map.mpr ⟨p, hp, by simpa using he⟩
    rw [if_pos hmem, List.map_map]
    apply List.map_congr_left
    intro p hp
    by_cases hpk : p.1 = k
    · simp [hpk]
    · simp [hpk]
  · rw [if_neg hk]
    have hmem : k ∉ r.map Prod.fst := by
      intro hx
      apply hk
      obtain ⟨p, hp, he⟩ := List.mem_map.mp hx
      exact List.any_eq_true.mpr ⟨p, hp, by simp [he]⟩
    rw [if_neg hmem, List.map_append]
    rfl

theorem jsKeys_buildRowAux (values : List String) (hs : List String) (i : ℕ)
    (r : Record) :
    jsKeys (buildRowAux values hs i r) = jsKeys r ++ dedupFrom (jsKeys r) hs := by
  induction hs generalizing i r with
  | nil => simp [buildRowAux, dedupFrom]
  | cons a t ih =>
    unfold buildRowAux dedupFrom
    by_cases hmem : a ∈ jsKeys r
    · rw [if_pos hmem, ih, jsKeys_insertJs, if_pos hmem]
    · rw [if_neg hmem, ih, jsKeys_insertJs, if_neg hmem]
      rw [dedupFrom_congr (jsKeys r ++ [a]) (a :: jsKeys r) t
        (by intro x; simp [or_comm])]
      simp

theorem jsKeys_buildRow (headers values : List String) :
    jsKeys (buildRow headers values) = dedupFirst headers := by
  unfold buildRow dedupFirst
  rw [jsKeys_buildRowAux]
  rfl

theorem parseRows_eq (headers : List String) (ls : List String) :
    parseRows headers ls =
      (ls.filter (fun l => jsTrim l ≠ "")).map
        (fun l => buildRow headers (fieldsOf l)) := by
  induction ls with
  | nil => rfl
  | cons l t ih =>
    unfold parseRows
    by_cases hl : jsTrim l ≠ "" <;> simp [hl, ih]

theorem find?_map_subst (r : Record) (k h : String) (v : Value) :
    ((r.map (fun p => if p.1 == k then (k, v) else p)).find? (fun p => p.1 == h)) =
      if h = k then (r.find? (fun p => p.1 == k)).map (fun _ => (k, v))
      else r.find? (fun p => p.1 == h) := by
  induction r with
  | nil => by_cases hk : h = k <;> simp [hk]
  | cons p t ih =>
    simp only [List.map_cons, List.find?_cons]
    by_cases hpk : p.1 = k <;> by_cases hph : p.1 = h <;> by_cases hhk : h = k <;>
      simp_all [List.find?_cons]
    · rw [beq_eq_false_iff_ne.mpr hph]
    · rw [beq_eq_false_iff_ne.mpr hpk]

theorem lookupRec_insertJs (r : Record) (k : String) (v : Value) (h : String) :
    lookupRec (insertJs r k v) h = if h = k then some v else lookupRec r h := by
  unfold insertJs lookupRec
  by_cases hk : (r.any (fun p => p.1 == k)) = true
  · rw [if_pos hk, find?_map_subst]
    by_cases hhk : h = k
    · rw [if_pos hhk, if_pos hhk]
      have hsome : (r.find? (fun p => p.1 == k)).isSome = true := by
        rw [List.find?_isSome]
        obtain ⟨p, hp, he⟩ := List.any_eq_true.mp hk
        exact ⟨p, hp, he⟩
      obtain ⟨p, hp⟩ := Option.isSome_iff_exists.mp hsome
      rw [hp]
      rfl
    · rw [if_neg hhk, if_neg hhk]
  · rw [if_neg hk, List.find?_append]
    by_cases hhk : h = k
    · subst hhk
      have hnone : r.find? (fun p => p.1 == h) = none := by
        rw [List.find?_eq_none]
        intro p hp hpe
        exact hk (List.any_eq_true.mpr ⟨p, hp, hpe⟩)
      rw [hnone]
      simp [List.find?_cons]
    · have : (k == h) = false := by simpa using fun hx => hhk hx.symm
      cases hf : r.find? (fun p => p.1 == h) with
      | some p => simp [hhk]
      | none => simp [List.find?_cons, this, hhk]

theorem lookupRec_buildRowAux_blank (values : List String) (hs : List String)
    (i : ℕ) (r : Record) (h : String)
    (hinv : lookupRec r h = none ∨ lookupRec r h = some (Value.vStr ""))
    (hidx : ∀ k, k < hs.length → hs.getD k "" = h → values.length ≤ i + k) :
    lookupRec (buildRowAux values hs i r) h = none ∨
      lookupRec (buildRowAux values hs i r) h = some (Value.vStr "") := by
  induction hs generalizing i r with
  | nil => exact hinv
  | cons a t ih =>
    unfold buildRowAux
    apply ih
    · rw [lookupRec_insertJs]
      by_cases hha : h = a
      · right
        have hlen : values.length ≤ i := by
          have := hidx 0 (by simp) (by simpa using hha.symm)
          simpa using this
        rw [if_pos hha, List.getD_eq_default _ _ hlen]
      · rw [if_neg hha]
        exact hinv
    · intro k hk hg
      have := hidx (k + 1) (by simpa using Nat.succ_lt_succ hk) (by simpa using hg)
      omega

theorem lookupRec_buildRowAux_isSome (values : List String) (hs : List String)
    (i : ℕ) (r : Record) (h : String)
    (hmem : h ∈ hs ∨ (lookupRec r h).isSome = true) :
    (lookupRec (buildRowAux values hs i r) h).isSome = true := by
  induction hs generalizing i r with
  | nil =>
    rcases hmem with hm | hs2
    · exact absurd hm (List.not_mem_nil h)
    · exact hs2
  | cons a t ih =>
    unfold buildRowAux
    apply ih
    rcases hmem with hm | hs2
    · rcases List.mem_cons.mp hm with rfl | hmt
      · right
        rw [lookupRec_insertJs, if_pos rfl]
        rfl
      · left
        exact hmt
    · right
      rw [lookupRec_insertJs]
      by_cases hha : h = a
      · rw [if_pos hha]; rfl
      · rw [if_neg hha]; exact hs2

/-- C6: parseCSV produces, in input order, one record per data line that is
non-blank after trimming; every record has exactly the column set of the
header line in header order (first occurrence kept, as for JavaScript object
keys); and a data line with fewer fields than headers yields the empty
string in every column whose header positions all lie beyond the fields. -/
theorem parseCSV_shape (text : String) :
    parseCSV text =
      (((splitLines text).drop 1).filter (fun l => jsTrim l ≠ "")).map
        (fun l => buildRow (headersOf text) (fieldsOf l))
    ∧ (∀ r ∈ parseCSV text, jsKeys r = dedupFirst (headersOf text))
    ∧ (∀ (l : String) (h : String), h ∈ headersOf text →
        (∀ j, j < (headersOf text).length → (headersOf text).getD j "" = h →
          (fieldsOf l).length ≤ j) →
        lookupRec (buildRow (headersOf text) (fieldsOf l)) h = some (Value.vStr "")) := by
  refine ⟨parseRows_eq _ _, ?_, ?_⟩
  · intro r hr
    unfold parseCSV at hr
    rw [parseRows_eq] at hr
    obtain ⟨l, hl, rfl⟩ := List.mem_map.mp hr
    exact jsKeys_buildRow _ _
  · intro l h hmem hidx
    unfold buildRow
    have h1 := lookupRec_buildRowAux_blank (fieldsOf l) (headersOf text) 0 [] h
      (Or.inl rfl) (by intro k hk hg; simpa using hidx k hk hg)
    have h2 := lookupRec_buildRowAux_isSome (fieldsOf l) (headersOf text) 0 [] h
      (Or.inl hmem)
    rcases h1 with h1 | h1
    · rw [h1] at h2
      exact Bool.noConfusion h2
    · exact h1

/-- Witness for C6: concrete CSV text with a short data line. -/
theorem parseCSV_shape_witness :
    jsKeys (buildRow (headersOf "a,b\n1") (fieldsOf "1")) = dedupFirst (headersOf "a,b\n1")
    ∧ lookupRec (buildRow (headersOf "a,b\n1") (fieldsOf "1")) "b" = some (Value.vStr "") :=
  ⟨(parseCSV_shape "a,b\n1").2.1 (buildRow (headersOf "a,b\n1") (fieldsOf "1")) (by decide),
   (parseCSV_shape "a,b\n1").2.2 "1" "b" (by decide) (by decide)⟩

/-! Claim C2: calculateCorrelation computes the Pearson coefficient. -/

theorem corrPairs_eq (data : List Record) (c1 c2 : String) :
    corrPairs data c1 c2 =
      (data.filter (fun r =>
        jsNotNullish (lookupRec r c1) && (toNum (lookupRec r c1)).isSome &&
        jsNotNullish (lookupRec r c2) && (toNum (lookupRec r c2)).isSome)).map
        (fun r => ((toNum (lookupRec r c1)).getD 0, (toNum (lookupRec r c2)).getD 0)) := by
  unfold corrPairs
  rw [List.filter_map, List.map_map]
  have hpred : ∀ r ∈ data,
      ((fun p : Option Value × Option Value =>
        jsNotNullish p.1 && jsNotNullish p.2 && (toNum p.1).isSome && (toNum p.2).isSome) ∘
        (fun r : Record => (lookupRec r c1, lookupRec r c2))) r =
      (fun r : Record =>
        jsNotNullish (lookupRec r c1) && (toNum (lookupRec r c1)).isSome &&
        jsNotNullish (lookupRec r c2) && (toNum (lookupRec r c2)).isSome) r := by
    intro r hr
    simp only [Function.comp_apply]
    cases jsNotNullish (lookupRec r c1) <;> cases jsNotNullish (lookupRec r c2) <;>
      cases (toNum (lookupRec r c1)).isSome <;> cases (toNum (lookupRec r c2)).isSome <;> rfl
  rw [List.filter_congr hpred]
  rfl

theorem foldl_triple (ps : List (ℚ × ℚ)) (f g h : ℚ × ℚ → ℚ) (a b c : ℚ) :
    ps.foldl (fun acc p => (acc.1 + f p, acc.2.1 + g p, acc.2.2 + h p)) (a, b, c) =
      (a + (ps.map f).sum, b + (ps.map g).sum, c + (ps.map h).sum) := by
  induction ps generalizing a b c with
  | nil => simp
  | cons p t ih => simp [ih, add_assoc]

theorem corrTriple_eq (ps : List (ℚ × ℚ)) :
    corrTriple ps =
      ((ps.map (fun p => (p.1 - (ps.map Prod.fst).sum / (ps.length : ℚ)) *
          (p.2 - (ps.map Prod.snd).sum / (ps.length : ℚ)))).sum,
       (ps.map (fun p => (p.1 - (ps.map Prod.fst).sum / (ps.length : ℚ)) *
          (p.1 - (ps.map Prod.fst).sum / (ps.length : ℚ)))).sum,
       (ps.map (fun p => (p.2 - (ps.map Prod.snd).sum / (ps.length : ℚ)) *
          (p.2 - (ps.map Prod.snd).sum / (ps.length : ℚ)))).sum) := by
  unfold corrTriple
  simp only [foldl_add_eq_sum]
  rw [foldl_triple]
  simp

theorem pearsonSpec_eq_pairs (data : List Record) (c1 c2 : String) :
    pearsonSpec data c1 c2 =
      (if data.isEmpty ∨ (corrPairs data c1 c2).length < 2 then (0 : ℝ)
       else
         let ps := corrPairs data c1 c2
         let mx := (ps.map Prod.fst).sum / (ps.length : ℚ)
         let my := (ps.map Prod.snd).sum / (ps.length : ℚ)
         let num := (ps.map (fun p => (p.1 - mx) * (p.2 - my))).sum
         let sx := (ps.map (fun p => (p.1 - mx) * (p.1 - mx))).sum
         let sy := (ps.map (fun p => (p.2 - my) * (p.2 - my))).sum
         if sx = 0 ∨ sy = 0 then (0 : ℝ)
         else (num : ℝ) / Real.sqrt ((sx : ℝ) * (sy : ℝ))) := by
  unfold pearsonSpec
  simp only [corrPairs_eq, List.map_map, List.length_map, List.zip_map']
  rfl

/-- C2: calculateCorrelation returns the Pearson correlation coefficient over
exactly those rows where both columns are non-null and coerce to numbers
(sum of products of deviations from the two means over the square root of
the product of the two sums of squared deviations), and returns 0 when the
dataset is empty, fewer than two valid pairs exist, or the denominator is
zero (zero variance in either column). -/
theorem calculateCorrelation_eq_pearsonSpec (data : List Record) (c1 c2 : String) :
    calculateCorrelation data c1 c2 = pearsonSpec data c1 c2 := by
  rw [pearsonSpec_eq_pairs]
  unfold calculateCorrelation
  by_cases hd : data.isEmpty = true
  · simp [hd]
  · rw [if_neg hd]
    have hdor : (data.isEmpty = true ∨ (corrPairs data c1 c2).length < 2) ↔
        ((corrPairs data c1 c2).length < 2) := by
      constructor
      · rintro (hx | hx)
        · exact absurd hx hd
        · exact hx
      · exact Or.inr
    simp only []
    by_cases hlen : (corrPairs data c1 c2).length < 2
    · rw [if_pos hlen, if_pos (hdor.mpr hlen)]
    · rw [if_neg hlen, if_neg (fun hx => hlen (hdor.mp hx))]
      rw [corrTriple_eq]
      dsimp only
      set ps := corrPairs data c1 c2 with hps
      set mx := (ps.map Prod.fst).sum / (ps.length : ℚ) with hmx
      set my := (ps.map Prod.snd).sum / (ps.length : ℚ) with hmy
      set num := (ps.map (fun p => (p.1 - mx) * (p.2 - my))).sum with hnum
      set sx := (ps.map (fun p => (p.1 - mx) * (p.1 - mx))).sum with hsx
      set sy := (ps.map (fun p => (p.2 - my) * (p.2 - my))).sum with hsy
      have hsx0 : (0 : ℚ) ≤ sx := by
        rw [hsx]
        apply List.sum_nonneg
        intro x hx
        obtain ⟨p, hp, rfl⟩ := List.mem_map.mp hx
        exact mul_self_nonneg _
      have hsy0 : (0 : ℚ) ≤ sy := by
        rw [hsy]
        apply List.sum_nonneg
        intro x hx
        obtain ⟨p, hp, rfl⟩ := List.mem_map.mp hx
        exact mul_self_nonneg _
      have hcond : (Real.sqrt ((sx : ℝ) * (sy : ℝ)) = 0) ↔ (sx = 0 ∨ sy = 0) := by
        rw [Real.sqrt_eq_zero']
        constructor
        · intro hle
          have hprod : (sx : ℝ) * (sy : ℝ) = 0 := le_antisymm hle
            (mul_nonneg (by exact_mod_cast hsx0) (by exact_mod_cast hsy0))
          rcases mul_eq_zero.mp hprod with hx | hx
          · exact Or.inl (by exact_mod_cast hx)
          · exact Or.inr (by exact_mod_cast hx)
        · intro hx
          rcases hx with hx | hx <;> simp [hx]
      by_cases hz : sx = 0 ∨ sy = 0
      · rw [if_pos (hcond.mpr hz), if_pos hz]
      · rw [if_neg (fun hx => hz (hcond.mp hx)), if_neg hz]

end SheetGPT
